import Mathlib

/-!
A verification development for the `fopsMaintenance` Caddy module
(`fopsMaintenance.go`, `fopsMaintenanceAdminApi.go`): a shallow embedding of
the maintenance-mode request gate, its IP/CIDR access control, proxy-trust
resolution, credential verification, status persistence and the admin toggle,
together with theorems about the behaviour of those functions.

Modelling conventions:
* Go strings are Lean `String`s; the character-level helpers below mirror the
  behaviour of the Go standard-library functions the module calls
  (`strings.TrimSpace`, `strings.Split`, `net.SplitHostPort`, ...), restricted
  to the ASCII inputs the module deals with.
* Go `net.IP` values are modelled as IPv4 addresses encoded as `Nat` values
  below `2^32` (the module's own test-suite and the examples in its
  documentation only exercise IPv4; `parseIPModel` returns `none` on anything
  that is not dotted-decimal IPv4, which is the conservative direction for
  every property proved here).
* The bcrypt comparison `bcrypt.CompareHashAndPassword` is an external
  primitive; functions that call it take it as an explicit oracle argument
  `bc : String → String → Bool` (`bc hash password = true` iff the comparison
  succeeds), so theorems can quantify over every possible oracle.
* File-system reads are passed in as `Option String` arguments
  (`none` = read error / missing file, `some c` = file content `c`).
* The blocking retention loop of `ServeHTTP` is modelled by the sequence of
  events occurring while the request is held, in order.  Its `select` watches
  the deadline timer, the handler's Caddy context (`h.ctx`, cancelled on
  config reload or shutdown) and a periodic poll — and nothing per-request,
  so a client disconnect is an event the loop does not react to.
-/

namespace FopsMaintenance

/-! ## Character-list string helpers (models of Go `strings` functions) -/

/-- ASCII white space, as trimmed by `strings.TrimSpace` on ASCII input. -/
def isSpaceChar (c : Char) : Bool :=
  c = ' ' || c = '\t' || c = '\n' || c = '\r' || c = '\x0b' || c = '\x0c'

/-- Drop leading white space from a character list. -/
def dropLeadingSpace (l : List Char) : List Char :=
  l.dropWhile isSpaceChar

/-- Model of `strings.TrimSpace` (ASCII fragment). -/
def trimSpaceL (l : List Char) : List Char :=
  (((l.dropWhile isSpaceChar).reverse).dropWhile isSpaceChar).reverse

/-- Model of `strings.TrimSpace` on `String`. -/
def trimSpace (s : String) : String :=
  String.mk (trimSpaceL s.data)

/-- Model of `strings.Split` on a single separator character.
`strings.Split("", sep)` returns one empty part, matching the base case. -/
def splitOnChar (sep : Char) : List Char → List (List Char)
  | [] => [[]]
  | c :: rest =>
    let r := splitOnChar sep rest
    if c = sep then [] :: r
    else
      match r with
      | [] => [[c]]
      | h :: t => (c :: h) :: t

/-- Does `p` occur as a contiguous substring of `s`? -/
def isSubstr (p : List Char) : List Char → Bool
  | [] => p.isEmpty
  | c :: rest => p.isPrefixOf (c :: rest) || isSubstr p rest

/-- First index of character `c` in `l`, if any. -/
def firstIdx (c : Char) : List Char → Option Nat
  | [] => none
  | x :: xs => if x = c then some 0 else (firstIdx c xs).map (· + 1)

/-- Last index of character `c` in `l`, if any. -/
def lastIdx (c : Char) : List Char → Option Nat
  | [] => none
  | x :: xs =>
    match lastIdx c xs with
    | some i => some (i + 1)
    | none => if x = c then some 0 else none

/-! ## IPv4 address and CIDR model (models of `net.ParseIP`, `net.ParseCIDR`,
`net.IP.Equal`, `net.IPNet.Contains`, `net.SplitHostPort`) -/

/-- A decimal octet as `net.ParseIP` accepts it since Go 1.17: one to three
digits, value at most 255, no leading zero. -/
def parseOctet (l : List Char) : Option Nat :=
  if l.isEmpty then none
  else if ¬ l.all (·.isDigit) then none
  else if 1 < l.length && l.head? = some '0' then none
  else
    let n := l.foldl (fun a c => a * 10 + (c.toNat - 48)) 0
    if n ≤ 255 then some n else none

/-- Model of `net.ParseIP`, restricted to dotted-decimal IPv4: the result is
the 32-bit address value as a `Nat`.  Anything else (including IPv6 text,
which the module never exercises) parses to `none`. -/
def parseIPModel (s : String) : Option Nat :=
  let l := s.data
  if l.any (· = ':') then none
  else
    match splitOnChar '.' l with
    | [a, b, c, d] => do
      let a ← parseOctet a
      let b ← parseOctet b
      let c ← parseOctet c
      let d ← parseOctet d
      pure (((a * 256 + b) * 256 + c) * 256 + d)
    | _ => none

/-- Model of `*net.IPNet`: the masked network address and the prefix length. -/
structure IPNetModel where
  netAddr : Nat
  prefixLen : Nat
deriving DecidableEq, Repr

/-- Keep the top `p` bits of a 32-bit address value. -/
def maskAddr (p : Nat) (v : Nat) : Nat :=
  (v / 2 ^ (32 - p)) * 2 ^ (32 - p)

/-- Model of `net.IPNet.Contains` for IPv4. -/
def ipnetContains (n : IPNetModel) (ip : Nat) : Bool :=
  maskAddr n.prefixLen ip = n.netAddr

/-- Decimal prefix length: digits only, value at most 32 (model of the mask
validation in `net.ParseCIDR` for IPv4). -/
def parsePrefixLen (l : List Char) : Option Nat :=
  if l.isEmpty then none
  else if ¬ l.all (·.isDigit) then none
  else
    let n := l.foldl (fun a c => a * 10 + (c.toNat - 48)) 0
    if n ≤ 32 then some n else none

/-- Model of `net.ParseCIDR` for IPv4, returning the network (`*net.IPNet`)
component: the address is masked down to the prefix. -/
def parseCIDRModel (s : String) : Option IPNetModel :=
  match firstIdx '/' s.data with
  | none => none
  | some i =>
    let addrPart := String.mk (s.data.take i)
    let maskPart := s.data.drop (i + 1)
    match parseIPModel addrPart, parsePrefixLen maskPart with
    | some v, some p => some ⟨maskAddr p v, p⟩
    | _, _ => none

/-- Model of `net.SplitHostPort`: `some (host, port)` on success, `none` when
the Go function returns an error. -/
def splitHostPort (s : String) : Option (String × String) :=
  let l := s.data
  match lastIdx ':' l with
  | none => none
  | some i =>
    if l.head? = some '[' then
      match firstIdx ']' l with
      | none => none
      | some e =>
        if e + 1 = l.length then none
        else if e + 1 = i then
          let host := (l.drop 1).take (e - 1)
          if (l.drop 1).any (· = '[') then none
          else if (l.drop (e + 1)).any (· = ']') then none
          else some (String.mk host, String.mk (l.drop (i + 1)))
        else none
    else
      let host := l.take i
      if host.any (· = ':') then none
      else if l.any (· = '[') then none
      else if (l.drop i).any (· = ']') then none
      else some (String.mk host, String.mk (l.drop (i + 1)))

/-- The host part of `RemoteAddr` when it carries a port, the raw value
otherwise — the first two lines of `getClientIP`. -/
def stripPort (s : String) : String :=
  match splitHostPort s with
  | some (host, _) => host
  | none => s

/-! ## The handler and request data model -/

/-- Model of the `MaintenanceHandler` struct: the configuration fields and the
pre-parsed state (`allowedIndividualIPs`, `allowedNetworks`,
`trustedProxyIPs`, `trustedProxyNetworks`, `htpasswdEntries`) plus the guarded
`enabled` flag.  IPs are `Nat` (see `parseIPModel`); the htpasswd map is an
association list. -/
structure MaintenanceHandler where
  HTMLTemplate : String := ""
  AllowedIPs : List String := []
  AllowedIPsFile : String := ""
  UseForwardedHeaders : Bool := false
  TrustedProxies : List String := []
  RetryAfter : Int := 0
  DefaultEnabled : Bool := false
  StatusFile : String := ""
  enabled : Bool := false
  RequestRetentionModeTimeout : Int := 0
  AuthRealm : String := ""
  HtpasswdFile : String := ""
  BypassPaths : List String := []
  allowedIndividualIPs : List Nat := []
  allowedNetworks : List IPNetModel := []
  trustedProxyIPs : List Nat := []
  trustedProxyNetworks : List IPNetModel := []
  htpasswdEntries : List (String × String) := []
deriving DecidableEq, Repr

/-- Model of the request data `ServeHTTP` consults.  Header accessors return
`""` for an absent header, exactly as `http.Header.Get` does, so absent
headers are empty strings here. -/
structure Request where
  remoteAddr : String := ""
  path : String := ""
  authorization : String := ""
  accept : String := ""
  contentType : String := ""
  xForwardedFor : String := ""
  xRealIP : String := ""
deriving DecidableEq, Repr

/-! ## IP access control (`isIPAllowed`, `isTrustedProxy`) -/

/-- Model of `MaintenanceHandler.isIPAllowed`: parse the candidate, then check
the pre-parsed individual IPs, then the pre-parsed CIDR networks. -/
def isIPAllowed (h : MaintenanceHandler) (clientIP : String) : Bool :=
  match parseIPModel clientIP with
  | none => false
  | some ip =>
    if h.allowedIndividualIPs.any (fun a => ip = a) then true
    else if h.allowedNetworks.any (fun n => ipnetContains n ip) then true
    else false

/-- Model of `MaintenanceHandler.isTrustedProxy` (the caller always passes a
successfully parsed, hence non-nil, IP). -/
def isTrustedProxy (h : MaintenanceHandler) (ip : Nat) : Bool :=
  if h.trustedProxyIPs.any (fun p => ip = p) then true
  else if h.trustedProxyNetworks.any (fun n => ipnetContains n ip) then true
  else false

/-! ## Path bypass (`isPathBypassed`) -/

/-- Model of `strings.TrimSuffix`. -/
def trimSuffix (suf : String) (s : String) : String :=
  if suf.data.isSuffixOf s.data then String.mk (s.data.take (s.data.length - suf.data.length))
  else s

/-- Model of `strings.TrimPrefix`. -/
def trimPfx (pre : String) (s : String) : String :=
  if pre.data.isPrefixOf s.data then String.mk (s.data.drop pre.data.length)
  else s

/-- Path normalization inside `isPathBypassed`: strip one trailing slash,
treat the empty path as root. -/
def normalizePath (p : String) : String :=
  let p := trimSuffix "/" p
  if p = "" then "/" else p

/-- One pattern of `isPathBypassed`'s loop body: exact match on the normalized
pattern, or prefix match when the configured pattern ends in `"/*"`. -/
def bypassPatternMatches (path : String) (bypassPath : String) : Bool :=
  let bp := normalizePath bypassPath
  if path = bp then true
  else if "/*".data.isSuffixOf bp.data then
    let pfx := trimSuffix "/*" bp
    let pfx := if pfx = "" then "/" else pfx
    pfx.data.isPrefixOf path.data
  else false

/-- Model of `MaintenanceHandler.isPathBypassed`. -/
def isPathBypassed (h : MaintenanceHandler) (path : String) : Bool :=
  if h.BypassPaths.isEmpty then false
  else
    let path := normalizePath path
    h.BypassPaths.any (fun bp => bypassPatternMatches path bp)

/-! ## Client IP resolution (`getClientIP`) -/

/-- The `X-Forwarded-For` scan of `getClientIP`: iterate the comma-separated
parts from the rightmost to the leftmost; skip a part that trims to empty,
fails to parse, or is itself a trusted proxy; return the first (trimmed)
surviving candidate. -/
def pickFromXFF (h : MaintenanceHandler) (parts : List String) : Option String :=
  parts.reverse.findSome? (fun part =>
    let candidate := trimSpace part
    if candidate = "" then none
    else
      match parseIPModel candidate with
      | none => none
      | some ip => if isTrustedProxy h ip then none else some candidate)

/-- Model of `MaintenanceHandler.getClientIP`. -/
def getClientIP (h : MaintenanceHandler) (r : Request) : String :=
  let clientIP := stripPort r.remoteAddr
  if ¬ h.UseForwardedHeaders then clientIP
  else
    match parseIPModel clientIP with
    | none => clientIP
    | some remoteIP =>
      if ¬ isTrustedProxy h remoteIP then clientIP
      else
        let fromXFF :=
          if r.xForwardedFor ≠ "" then
            pickFromXFF h ((splitOnChar ',' r.xForwardedFor.data).map String.mk)
          else none
        match fromXFF with
        | some candidate => candidate
        | none =>
          let xrip := trimSpace r.xRealIP
          if xrip ≠ "" then
            match parseIPModel xrip with
            | some ip => if ¬ isTrustedProxy h ip then xrip else clientIP
            | none => clientIP
          else clientIP

/-! ## Credential verification (`verifyPassword`, `isAuthenticated`) -/

/-- Model of `MaintenanceHandler.verifyPassword`.  The bcrypt primitive is the
oracle `bc` (`bc hash password`); it is only consulted when the stored hash is
at least four bytes long and its first two bytes are `$2` (the condition
`storedHash[0] == '$' && storedHash[1] == '2'`, expressed on the first two
characters, which the length guard makes available). -/
def verifyPassword (bc : String → String → Bool) (password : String)
    (storedHash : String) : Bool :=
  if 4 ≤ storedHash.data.length then
    if storedHash.data.take 2 = ['$', '2'] then bc storedHash password
    else false
  else false

/-- Value of one base64 alphabet character (`base64.StdEncoding`). -/
def b64Val (c : Char) : Option Nat :=
  if 'A' ≤ c ∧ c ≤ 'Z' then some (c.toNat - 65)
  else if 'a' ≤ c ∧ c ≤ 'z' then some (c.toNat - 97 + 26)
  else if '0' ≤ c ∧ c ≤ '9' then some (c.toNat - 48 + 52)
  else if c = '+' then some 62
  else if c = '/' then some 63
  else none

/-- Decode the base64 quantum groups of an input already freed of newlines;
`'='` padding is accepted only in the final group. -/
def b64Groups : List Char → Option (List Char)
  | [] => some []
  | a :: b :: c :: d :: rest => do
    let va ← b64Val a
    let vb ← b64Val b
    if c = '=' then
      if d = '=' ∧ rest = [] then
        pure [Char.ofNat ((va * 4 + vb / 16) % 256)]
      else none
    else do
      let vc ← b64Val c
      if d = '=' then
        if rest = [] then
          pure [Char.ofNat ((va * 4 + vb / 16) % 256),
                Char.ofNat ((vb % 16 * 16 + vc / 4) % 256)]
        else none
      else do
        let vd ← b64Val d
        let tail ← b64Groups rest
        pure (Char.ofNat ((va * 4 + vb / 16) % 256) ::
              Char.ofNat ((vb % 16 * 16 + vc / 4) % 256) ::
              Char.ofNat ((vc % 4 * 64 + vd) % 256) :: tail)
  | _ => none

/-- Model of `base64.StdEncoding.DecodeString`: newline characters are
ignored, everything else must be a well-formed padded quantum stream. -/
def base64Decode (s : String) : Option String :=
  (b64Groups (s.data.filter (fun c => ¬ (c = '\n' ∨ c = '\r')))).map String.mk

/-- Split at the first occurrence of `sep`, model of `strings.SplitN (· , 2)`
returning `none` when the separator is absent (the caller then sees a
one-element split and bails out). -/
def splitN2 (sep : Char) (s : String) : Option (String × String) :=
  match firstIdx sep s.data with
  | none => none
  | some i => some (String.mk (s.data.take i), String.mk (s.data.drop (i + 1)))

/-- First-match lookup in the htpasswd association list (model of the Go map
built by `parseHtpasswdFile`, whose keys are unique). -/
def lookupEntry (user : String) : List (String × String) → Option String
  | [] => none
  | (u, p) :: rest => if u = user then some p else lookupEntry user rest

/-- Model of `MaintenanceHandler.isAuthenticated`. -/
def isAuthenticated (bc : String → String → Bool) (h : MaintenanceHandler)
    (r : Request) : Bool :=
  if h.HtpasswdFile = "" ∨ h.htpasswdEntries.length = 0 then false
  else if r.authorization = "" then false
  else if ¬ "Basic ".data.isPrefixOf r.authorization.data then false
  else
    match base64Decode (trimPfx "Basic " r.authorization) with
    | none => false
    | some decoded =>
      match splitN2 ':' decoded with
      | none => false
      | some (username, password) =>
        match lookupEntry username h.htpasswdEntries with
        | none => false
        | some storedHash => verifyPassword bc password storedHash

/-! ## The maintenance response (`serveMaintenancePage`, `isJSONRequest`,
`serveJSON`, `serveHTML`) -/

/-- Response body written by `serveMaintenancePage`: either the JSON document
of `serveJSON` or an HTML page. -/
inductive ResponseBody where
  | json (content : String)
  | html (content : String)
deriving DecidableEq, Repr

/-- The observable parts of the maintenance response: the `Retry-After`
header, the status code, the optional `WWW-Authenticate` header and the
body. -/
structure MaintResponse where
  retryAfter : Int
  status : Nat
  wwwAuthenticate : Option String
  body : ResponseBody
deriving DecidableEq, Repr

def defaultHTMLTemplate : String :=
  "<!DOCTYPE html>\n<html lang=\"en\">\n<head>\n    <meta charset=\"UTF-8\">\n    <title>Maintenance in"
  ++ " Progress</title>\n    <meta name=\"robots\" content=\"noindex\">\n    <meta name=\"viewport\" conte"
  ++ "nt=\"width=device-width, initial-scale=1.0\">\n    <style>\n        :root \x7b\n            --primar"
  ++ "y-color: #2563eb;\n            --secondary-color: #4b5563;\n            --text-color: #1f2937;\n    "
  ++ "        --bg-color: #f3f4f6;\n            --container-bg-color: #ffffff;\n        \x7d\n        \n  "
  ++ "      * \x7b\n            margin: 0;\n            padding: 0;\n            box-sizing: border-box;\n"
  ++ "        \x7d\n        \n        body \x7b\n            font-family: -apple-system, BlinkMacSystemFon"
  ++ "t, \"Segoe UI\", Roboto, Oxygen, Ubuntu, Cantarell, sans-serif;\n            line-height: 1.6;\n    "
  ++ "        color: var(--text-color);\n            background: var(--bg-color);\n            min-height:"
  ++ " 100vh;\n            display: flex;\n            align-items: center;\n            justify-content: "
  ++ "center;\n            padding: 1rem;\n        \x7d\n        \n        .maintenance-container \x7b\n  "
  ++ "          max-width: 500px;\n            text-align: center;\n            background: var(--containe"
  ++ "r-bg-color);\n            padding: 2rem;\n            border-radius: 1rem;\n            box-shadow: "
  ++ "0 4px 8px rgba(0, 0, 0, 0.1);\n            transition: box-shadow 0.3s ease-in-out;\n        \x7d\n"
  ++ "\n        .maintenance-container:hover \x7b\n            box-shadow: 0 8px 16px rgba(0, 0, 0, 0.2);"
  ++ "\n        \x7d\n        \n        .icon \x7b\n            font-size: 4rem;\n            margin-botto"
  ++ "m: 1rem;\n            color: var(--primary-color);\n        \x7d\n        \n        h1 \x7b\n       "
  ++ "     font-size: 2rem;\n            font-weight: 700;\n            margin-bottom: 1rem;\n            "
  ++ "color: var(--text-color);\n        \x7d\n        \n        p \x7b\n            font-size: 1.125rem;"
  ++ "\n            color: var(--secondary-color);\n            margin-bottom: 1.5rem;\n        \x7d\n\n  "
  ++ "      .refresh-button \x7b\n            background-color: var(--primary-color);\n            color: "
  ++ "white;\n            border: none;\n            padding: 0.75rem 1.5rem;\n            border-radius: "
  ++ "0.5rem;\n            font-size: 1rem;\n            cursor: pointer;\n            transition: backgro"
  ++ "und-color 0.3s;\n        \x7d\n\n        .refresh-button:hover \x7b\n            background-color: #"
  ++ "1d4ed8;\n        \x7d\n        \n        @media (max-width: 640px) \x7b\n            .maintenance-co"
  ++ "ntainer \x7b\n                padding: 1.5rem;\n                margin: 1rem;\n            \x7d\n   "
  ++ "         \n            h1 \x7b\n                font-size: 1.5rem;\n            \x7d\n            \n"
  ++ "            p \x7b\n                font-size: 1rem;\n            \x7d\n            \n            .i"
  ++ "con \x7b\n                font-size: 3rem;\n            \x7d\n\n            .refresh-button \x7b\n  "
  ++ "              padding: 0.5rem 1rem;\n                font-size: 0.875rem;\n            \x7d\n       "
  ++ " \x7d\n    </style>\n</head>\n<body>\n    <div class=\"maintenance-container\">\n        <div class="
  ++ "\"icon\">🔧</div>\n        <h1>We\x27ll Be Back Soon!</h1>\n        <p>We\x27re currently upgrading o"
  ++ "ur system to serve you better. <br>We appreciate your patience during this brief maintenance.</p>\n "
  ++ "       <p>Feel free to refresh the page in a few minutes.</p>\n        <button class=\"refresh-butto"
  ++ "n\" onclick=\"location.reload()\">Refresh Page</button>\n    </div>\n</body>\n</html>"

/-- The `defaultRetryAfter` constant. -/
def defaultRetryAfter : Int := 300

/-- The body `serveJSON` encodes (`json.NewEncoder` writes the map with
sorted keys and a trailing newline). -/
def serveJSONBody : String :=
  "\x7b\"message\":\"Service temporarily unavailable for maintenance\",\"status\":\"error\"\x7d\n"

/-- Model of `isJSONRequest`. -/
def isJSONRequest (r : Request) : Bool :=
  r.accept = "application/json" || r.contentType = "application/json"

/-- Model of `serveMaintenancePage`: choose the `Retry-After` value, pick
401-with-challenge when basic auth is configured (htpasswd file set and at
least one entry loaded) and 503 otherwise, then encode a JSON or HTML body. -/
def serveMaintenancePage (h : MaintenanceHandler) (r : Request) : MaintResponse :=
  let retryAfter := if 0 < h.RetryAfter then h.RetryAfter else defaultRetryAfter
  let auth :=
    if h.HtpasswdFile ≠ "" ∧ 0 < h.htpasswdEntries.length then
      let realm := if h.AuthRealm ≠ "" then h.AuthRealm else "Maintenance Mode"
      some ("Basic realm=\"" ++ realm ++ "\"")
    else none
  let status := match auth with
    | some _ => 401
    | none => 503
  let body :=
    if isJSONRequest r then ResponseBody.json serveJSONBody
    else ResponseBody.html (if h.HTMLTemplate = "" then defaultHTMLTemplate else h.HTMLTemplate)
  { retryAfter := retryAfter, status := status, wwwAuthenticate := auth, body := body }

/-! ## `ServeHTTP` and the retention hold loop -/

/-- One event occurring while a request sits in the retention loop's
`for`/`select`.  The `select` watches exactly three channels: the retention
timer (`timer.C`); the cancellation of `h.ctx` — the handler's Caddy
provisioning/config context stored by `Provision`, which fires on a config
reload or server shutdown and on nothing per-request; and the
once-per-second poll, whose event carries the value of `enabled` it read.
A disconnect of the requesting client (`r.Context()`) fires none of the
watched channels — the loop never selects on the request's own context — so
it is an event the loop does not react to. -/
inductive HoldEvent where
  | timerFired
  | ctxCancelled
  | pollTick (enabled : Bool)
  | clientDisconnected
deriving DecidableEq, Repr

/-- How `ServeHTTP` terminates: forward to the next handler, or write the
maintenance response. -/
inductive ServeOutcome where
  | forward
  | maintenance (resp : MaintResponse)
deriving DecidableEq, Repr

/-- Model of the `for`/`select` retention loop of `ServeHTTP`, driven by the
sequence of events occurring while the request is held: the timer or the
cancellation of the handler's context resolves to the maintenance response; a
poll that reads `enabled == false` resolves to forwarding; a poll that reads
`enabled == true` loops; a client disconnect fires none of the three watched
channels, so the loop keeps waiting.  `none` means the event sequence ran out
without the loop resolving (in the running program the timer always fires
eventually). -/
def holdLoop (h : MaintenanceHandler) (r : Request) :
    List HoldEvent → Option ServeOutcome
  | [] => none
  | HoldEvent.timerFired :: _ => some (ServeOutcome.maintenance (serveMaintenancePage h r))
  | HoldEvent.ctxCancelled :: _ => some (ServeOutcome.maintenance (serveMaintenancePage h r))
  | HoldEvent.pollTick enabled :: rest =>
    if enabled then holdLoop h r rest
    else some ServeOutcome.forward
  | HoldEvent.clientDisconnected :: rest => holdLoop h r rest

/-- Model of `MaintenanceHandler.ServeHTTP`.  `h.enabled` is the value read
under the lock on entry; later reads inside the hold loop are carried by the
`pollTick` events (an admin toggle may change the flag while the request is
held).  `events` is the event sequence the retention loop runs on; it is
consulted only when the request is denied and retention is configured. -/
def serveHTTP (bc : String → String → Bool) (h : MaintenanceHandler)
    (r : Request) (events : List HoldEvent) : Option ServeOutcome :=
  if ¬ h.enabled then some ServeOutcome.forward
  else if isPathBypassed h r.path then some ServeOutcome.forward
  else if isIPAllowed h (getClientIP h r) then some ServeOutcome.forward
  else if isAuthenticated bc h r then some ServeOutcome.forward
  else if ¬ (0 < h.RequestRetentionModeTimeout) then
    some (ServeOutcome.maintenance (serveMaintenancePage h r))
  else holdLoop h r events

/-! ## Allow-list loading (`parseAllowedIPs`, `loadIPsFromFile`) -/

/-- One line of `loadIPsFromFile`'s loop: trim, skip blanks and `#` comments,
strip inline comments, then validate as CIDR (when it contains `/`) or as an
individual IP.  Returns `none` to skip, `some (Except.ok line)` to keep the
validated text, `some (Except.error msg)` on a parse failure. -/
def loadIPsLine (lineNum : Nat) (rawLine : String) : Option (Except String String) :=
  let line := trimSpace rawLine
  if line = "" ∨ "#".data.isPrefixOf line.data then none
  else
    let line :=
      match firstIdx '#' line.data with
      | some ci => trimSpace (String.mk (line.data.take ci))
      | none => line
    if line = "" then none
    else if line.data.any (· = '/') then
      match parseCIDRModel line with
      | none => some (Except.error ("invalid CIDR notation \x27" ++ line ++ "\x27 at line "
          ++ toString (lineNum + 1)))
      | some _ => some (Except.ok line)
    else
      match parseIPModel line with
      | none => some (Except.error ("invalid IP address \x27" ++ line ++ "\x27 at line "
          ++ toString (lineNum + 1)))
      | some _ => some (Except.ok line)

/-- The line loop of `loadIPsFromFile`, starting at line index `lineNum`. -/
def loadIPsLines (lineNum : Nat) : List String → Except String (List String)
  | [] => Except.ok []
  | line :: rest =>
    match loadIPsLine lineNum line with
    | none => loadIPsLines (lineNum + 1) rest
    | some (Except.error e) => Except.error e
    | some (Except.ok ip) =>
      match loadIPsLines (lineNum + 1) rest with
      | Except.error e => Except.error e
      | Except.ok ips => Except.ok (ip :: ips)

/-- Model of `MaintenanceHandler.loadIPsFromFile` applied to the content of an
already-read file (a read failure is handled by the caller). -/
def loadIPsFromFile (content : String) : Except String (List String) :=
  loadIPsLines 0 ((splitOnChar '\n' content.data).map String.mk)

/-- The entry loop of `parseAllowedIPs`: each entry is trimmed and parsed; a
parse failure returns the error together with the handler state accumulated so
far (the Go code mutates `h.allowedIndividualIPs` / `h.allowedNetworks` in
place as it walks the list, so entries parsed before a failure stay in the
handler). -/
def parseAllowedIPsLoop (h : MaintenanceHandler) :
    List String → Option String × MaintenanceHandler
  | [] => (none, h)
  | entry :: rest =>
    let allowedIP := trimSpace entry
    if allowedIP.data.any (· = '/') then
      match parseCIDRModel allowedIP with
      | none => (some ("invalid CIDR notation \x27" ++ allowedIP ++ "\x27"), h)
      | some ipNet =>
        parseAllowedIPsLoop
          { h with allowedNetworks := h.allowedNetworks ++ [ipNet] } rest
    else
      match parseIPModel allowedIP with
      | none => (some ("invalid IP address \x27" ++ allowedIP ++ "\x27"), h)
      | some ip =>
        parseAllowedIPsLoop
          { h with allowedIndividualIPs := h.allowedIndividualIPs ++ [ip] } rest

/-- Model of `MaintenanceHandler.parseAllowedIPs`: reset the pre-parsed
slices, merge the file entries into `AllowedIPs` when a file is configured
(`fileContent` models the `os.ReadFile` result), then run the entry loop.
The result is the error (if any) paired with the handler state after the
call. -/
def parseAllowedIPs (h : MaintenanceHandler) (fileContent : Option String) :
    Option String × MaintenanceHandler :=
  let h := { h with allowedIndividualIPs := [], allowedNetworks := [] }
  if h.AllowedIPsFile ≠ "" then
    match fileContent with
    | none =>
      (some ("failed to load IPs from file \x27" ++ h.AllowedIPsFile
        ++ "\x27: failed to read file"), h)
    | some content =>
      match loadIPsFromFile content with
      | Except.error e =>
        (some ("failed to load IPs from file \x27" ++ h.AllowedIPsFile ++ "\x27: " ++ e), h)
      | Except.ok fileIPs =>
        let h := { h with AllowedIPs := h.AllowedIPs ++ fileIPs }
        parseAllowedIPsLoop h h.AllowedIPs
  else parseAllowedIPsLoop h h.AllowedIPs

/-! ## Status persistence (`Provision`'s status loading, the admin `toggle`)

`json.Unmarshal(data, &struct{ Enabled bool }{})` is modelled by
`unmarshalStatus`: a parser for a single flat-or-nested JSON object (or a
top-level `null`), ignoring every member except `"enabled"`, whose value must
be a boolean (or `null`, which leaves the zero value in place).  String
escapes are carried verbatim, which is faithful for every input the module
itself ever writes. -/

/-- JSON insignificant white space. -/
def isJSONSpace (c : Char) : Bool :=
  c = ' ' || c = '\t' || c = '\n' || c = '\r'

/-- Skip JSON white space. -/
def skipWS (l : List Char) : List Char := l.dropWhile isJSONSpace

/-- The `{` character (written via its code point). -/
def lbrace : Char := Char.ofNat 123

/-- The `}` character (written via its code point). -/
def rbrace : Char := Char.ofNat 125

/-- Scan a JSON string body after the opening quote, up to the closing quote;
returns the raw body and the remainder.  Fuel-bounded. -/
def scanStringBody : Nat → List Char → Option (List Char × List Char)
  | 0, _ => none
  | _, [] => none
  | fuel + 1, c :: rest =>
    if c = '"' then some ([], rest)
    else if c = '\\' then
      match rest with
      | [] => none
      | e :: rest2 => (scanStringBody fuel rest2).map (fun p => (c :: e :: p.1, p.2))
    else (scanStringBody fuel rest).map (fun p => (c :: p.1, p.2))

mutual

/-- Skip one JSON value (string, number, literal, object or array),
returning the remainder.  Fuel-bounded. -/
def skipValue : Nat → List Char → Option (List Char)
  | 0, _ => none
  | fuel + 1, l =>
    match skipWS l with
    | [] => none
    | c :: rest =>
      if c = '"' then (scanStringBody fuel rest).map (·.2)
      else if c = lbrace then skipObjectRest fuel rest
      else if c = '[' then skipArrayRest fuel rest
      else
        match skipWS (c :: rest) with
        | 't' :: 'r' :: 'u' :: 'e' :: r => some r
        | 'f' :: 'a' :: 'l' :: 's' :: 'e' :: r => some r
        | 'n' :: 'u' :: 'l' :: 'l' :: r => some r
        | l2 =>
          let num := l2.takeWhile (fun c =>
            c.isDigit || c = '-' || c = '+' || c = '.' || c = 'e' || c = 'E')
          if num.isEmpty then none else some (l2.drop num.length)

/-- Skip the members of a JSON object after the opening brace. -/
def skipObjectRest : Nat → List Char → Option (List Char)
  | 0, _ => none
  | fuel + 1, l =>
    match skipWS l with
    | [] => none
    | c :: rest =>
      if c = rbrace then some rest
      else if c = '"' then
        match scanStringBody fuel rest with
        | none => none
        | some (_, rest2) =>
          match skipWS rest2 with
          | ':' :: rest3 =>
            match skipValue fuel rest3 with
            | none => none
            | some rest4 =>
              match skipWS rest4 with
              | ',' :: rest5 => skipObjectRest fuel rest5
              | c2 :: rest5 => if c2 = rbrace then some rest5 else none
              | [] => none
          | _ => none
      else none

/-- Skip the elements of a JSON array after the opening bracket. -/
def skipArrayRest : Nat → List Char → Option (List Char)
  | 0, _ => none
  | fuel + 1, l =>
    match skipWS l with
    | [] => none
    | ']' :: rest => some rest
    | l2 =>
      match skipValue fuel l2 with
      | none => none
      | some rest =>
        match skipWS rest with
        | ',' :: rest2 => skipArrayRest fuel rest2
        | ']' :: rest2 => some rest2
        | _ => none

end

/-- The member loop for the status object: walk `"key": value` pairs; the
`"enabled"` member must be a boolean (a later duplicate overwrites an earlier
one, as in `encoding/json`); other members are skipped.  Returns the decoded
flag (if any member set it) and the remainder after the closing brace. -/
def statusMembers : Nat → List Char → Option Bool → Option (Option Bool × List Char)
  | 0, _, _ => none
  | fuel + 1, l, acc =>
    match skipWS l with
    | [] => none
    | c :: rest =>
      if c = rbrace then some (acc, rest)
      else if c = '"' then
        match scanStringBody fuel rest with
        | none => none
        | some (key, rest2) =>
          match skipWS rest2 with
          | ':' :: rest3 =>
            let step : Option (List Char × Option Bool) :=
              if String.mk key = "enabled" then
                match skipWS rest3 with
                | 't' :: 'r' :: 'u' :: 'e' :: r => some (r, some true)
                | 'f' :: 'a' :: 'l' :: 's' :: 'e' :: r => some (r, some false)
                | 'n' :: 'u' :: 'l' :: 'l' :: r => some (r, acc)
                | _ => none
              else (skipValue fuel rest3).map (fun r => (r, acc))
            match step with
            | none => none
            | some (rest4, acc2) =>
              match skipWS rest4 with
              | ',' :: rest5 => statusMembers fuel rest5 acc2
              | c2 :: rest5 => if c2 = rbrace then some (acc2, rest5) else none
              | [] => none
          | _ => none
      else none

/-- Model of `json.Unmarshal(data, &struct{ Enabled bool }{})`: `some flag`
when unmarshalling succeeds (an absent `"enabled"` member, or a top-level
`null`, leaves the zero value `false`), `none` when it reports an error. -/
def unmarshalStatus (data : String) : Option Bool :=
  let l := skipWS data.data
  match l with
  | 'n' :: 'u' :: 'l' :: 'l' :: rest =>
    if (skipWS rest).isEmpty then some false else none
  | c :: rest =>
    if c = lbrace then
      match statusMembers (data.data.length + 1) rest none with
      | none => none
      | some (acc, rest2) =>
        if (skipWS rest2).isEmpty then some (acc.getD false) else none
    else none
  | [] => none

/-- The enabled flag a freshly provisioned handler ends up with: the status
file (when configured, readable and well-formed) wins, otherwise
`DefaultEnabled` — the tail of `Provision`. -/
def provisionEnabled (statusFile : String) (fileContent : Option String)
    (defaultEnabled : Bool) : Bool :=
  if statusFile ≠ "" then
    match fileContent with
    | some data =>
      match unmarshalStatus data with
      | some flag => flag
      | none => defaultEnabled
    | none => defaultEnabled
  else defaultEnabled

/-- The request body of the admin `toggle` endpoint after JSON decoding:
`Enabled` plus `RequestRetentionModeTimeout`. -/
structure ToggleRequest where
  enabled : Bool
  requestRetentionModeTimeout : Int
deriving DecidableEq, Repr

/-- Model of decoding the toggle body: a JSON body that omits
`request_retention_mode_timeout` leaves the decoded field at the integer zero
value (`timeoutField = none`); a present member supplies its value. -/
def decodeToggleRequest (enabled : Bool) (timeoutField : Option Int) : ToggleRequest :=
  { enabled := enabled, requestRetentionModeTimeout := timeoutField.getD 0 }

/-- The per-handler mutation of `toggle`'s final loop: overwrite `enabled`
and `RequestRetentionModeTimeout` from the decoded request. -/
def toggleOne (req : ToggleRequest) (h : MaintenanceHandler) : MaintenanceHandler :=
  { h with enabled := req.enabled,
           RequestRetentionModeTimeout := req.requestRetentionModeTimeout }

/-- `toggle` applies `toggleOne` to every registered handler. -/
def applyToggle (req : ToggleRequest) (handlers : List MaintenanceHandler) :
    List MaintenanceHandler :=
  handlers.map (toggleOne req)

/-- `json.Marshal` of the status record `struct{ Enabled bool }` that
`toggle` persists to every configured status file. -/
def marshalStatus (b : Bool) : String :=
  if b then "\x7b\"enabled\":true\x7d" else "\x7b\"enabled\":false\x7d"

/-- The bytes `toggle` writes to the status files for a decoded request. -/
def togglePersistedContent (req : ToggleRequest) : String :=
  marshalStatus req.enabled

/-! ## General helper lemmas -/

/-- A list is a prefix of itself followed by anything. -/
theorem prefix_self_append (l t : List Char) : l.isPrefixOf (l ++ t) = true := by
  induction l with
  | nil => simp [List.isPrefixOf]
  | cons c rest ih => simp [List.isPrefixOf, ih]

/-- A substring match survives consing a character in front. -/
theorem isSubstr_cons (p : List Char) (c : Char) (l : List Char)
    (h : isSubstr p l = true) : isSubstr p (c :: l) = true := by
  simp [isSubstr, h]

/-- A prefix match is a substring match. -/
theorem isSubstr_of_prefix (p l : List Char) (h : p.isPrefixOf l = true) :
    isSubstr p l = true := by
  cases l with
  | nil =>
    cases p with
    | nil => rfl
    | cons x xs => simp [List.isPrefixOf] at h
  | cons c rest => simp [isSubstr, h]

/-- `p` occurs inside `a ++ p ++ b`. -/
theorem isSubstr_append_self (a p b : List Char) :
    isSubstr p (a ++ p ++ b) = true := by
  induction a with
  | nil =>
    simp only [List.nil_append]
    exact isSubstr_of_prefix _ _ (prefix_self_append p b)
  | cons c rest ih =>
    simp only [List.cons_append] at ih ⊢
    exact isSubstr_cons _ _ _ ih

/-- `findSome?` agrees on pointwise-equal functions. -/
theorem findSome?_congr {α β : Type} (f g : α → Option β) (l : List α)
    (h : ∀ x, f x = g x) : l.findSome? f = l.findSome? g := by
  induction l with
  | nil => rfl
  | cons x xs ih => simp only [List.findSome?]; rw [h x, ih]

/-! ## C9 — unsupported credential hash schemes fail closed -/

/-- C9: for every stored credential hash that does not begin with the bcrypt
marker `$2`, `verifyPassword` returns `false` for every presented password and
every behaviour of the bcrypt primitive — the stored value is never compared
(the result is independent of the oracle `bc`), so unsupported, legacy, or
plain-text hash values always fail verification. -/
theorem verifyPassword_fails_closed (bc : String → String → Bool)
    (password storedHash : String)
    (hmark : storedHash.data.take 2 ≠ ['$', '2']) :
    verifyPassword bc password storedHash = false := by
  unfold verifyPassword
  rcases Nat.lt_or_ge storedHash.data.length 4 with hlt | hge
  · rw [if_neg (by omega)]
  · rw [if_pos hge, if_neg hmark]

/-- Witness for C9: a plain-text stored value fails verification even when
the bcrypt oracle would accept everything. -/
theorem verifyPassword_fails_closed_witness :
    verifyPassword (fun _ _ => true) "secret" "plaintext" = false :=
  verifyPassword_fails_closed (fun _ _ => true) "secret" "plaintext" (by decide)

/-! ## C6 — the allow-set membership check -/

/-- The handler produced by loading the allow-list `["10.0.0.0/8"]` (the
concrete scenario of the spec). -/
def allow10 : MaintenanceHandler :=
  (parseAllowedIPs { AllowedIPs := ["10.0.0.0/8"] } none).2

/-- C6: for every allow-set state and candidate string, a candidate equal to a
literal entry matches, a candidate inside a configured CIDR matches, a
candidate outside all CIDRs and equal to no literal does not match, and a
candidate that fails to parse never matches; concretely, with allow-list
`["10.0.0.0/8"]` the candidate `10.1.2.3` matches and `192.168.1.1` does
not. -/
theorem isIPAllowed_spec (h : MaintenanceHandler) (cand : String) :
    (parseIPModel cand = none → isIPAllowed h cand = false)
  ∧ (∀ ip, parseIPModel cand = some ip → ip ∈ h.allowedIndividualIPs →
      isIPAllowed h cand = true)
  ∧ (∀ ip, parseIPModel cand = some ip →
      (∃ n ∈ h.allowedNetworks, ipnetContains n ip = true) →
      isIPAllowed h cand = true)
  ∧ (∀ ip, parseIPModel cand = some ip → ip ∉ h.allowedIndividualIPs →
      (∀ n ∈ h.allowedNetworks, ipnetContains n ip = false) →
      isIPAllowed h cand = false)
  ∧ (isIPAllowed allow10 "10.1.2.3" = true ∧ isIPAllowed allow10 "192.168.1.1" = false) := by
  refine ⟨?_, ?_, ?_, ?_, by decide, by decide⟩
  · intro hp
    simp [isIPAllowed, hp]
  · intro ip hp hmem
    simp only [isIPAllowed, hp]
    rw [if_pos (List.any_eq_true.mpr ⟨ip, hmem, by simp⟩)]
  · intro ip hp hex
    obtain ⟨n, hn, hc⟩ := hex
    simp only [isIPAllowed, hp]
    by_cases h1 : (List.any h.allowedIndividualIPs fun a => decide (ip = a)) = true
    · rw [if_pos h1]
    · rw [if_neg h1, if_pos (List.any_eq_true.mpr ⟨n, hn, hc⟩)]
  · intro ip hp hmem hnets
    simp only [isIPAllowed, hp]
    have h1 : ¬ (List.any h.allowedIndividualIPs fun a => decide (ip = a)) = true := by
      intro hcontra
      obtain ⟨a, ha, heq⟩ := List.any_eq_true.mp hcontra
      exact hmem (by rw [of_decide_eq_true heq]; exact ha)
    have h2 : ¬ (List.any h.allowedNetworks fun n => ipnetContains n ip) = true := by
      intro hcontra
      obtain ⟨m, hm, hcm⟩ := List.any_eq_true.mp hcontra
      rw [hnets m hm] at hcm
      cases hcm
    rw [if_neg h1, if_neg h2]


/-- Witness for C6: a candidate outside the only configured CIDR of
`allow10`, matching no literal, is rejected by the membership check. -/
theorem isIPAllowed_spec_witness :
    isIPAllowed allow10 "203.0.113.9" = false :=
  (isIPAllowed_spec allow10 "203.0.113.9").2.2.2.1 3405803785
    (by decide) (by decide) (by decide)

/-! ## C10 — the admin toggle overwrites the retention timeout everywhere -/

/-- C10: the admin toggle overwrites `RequestRetentionModeTimeout` of every
registered handler with the decoded body value; a body that omits
`request_retention_mode_timeout` decodes to the integer zero value, so the
toggle sets every handler's retention timeout to `0` (erasing a previously
configured positive timeout), while `enabled` is set from the body and every
other handler field is left unchanged. -/
theorem toggle_overwrites_retention (handlers : List MaintenanceHandler)
    (e : Bool) (h : MaintenanceHandler) (hmem : h ∈ handlers) :
    toggleOne (decodeToggleRequest e none) h ∈
      applyToggle (decodeToggleRequest e none) handlers
  ∧ (toggleOne (decodeToggleRequest e none) h).RequestRetentionModeTimeout = 0
  ∧ (toggleOne (decodeToggleRequest e none) h).enabled = e
  ∧ (∀ t : Int,
      (toggleOne (decodeToggleRequest e (some t)) h).RequestRetentionModeTimeout = t)
  ∧ (toggleOne (decodeToggleRequest e none) h).HTMLTemplate = h.HTMLTemplate
  ∧ (toggleOne (decodeToggleRequest e none) h).AllowedIPs = h.AllowedIPs
  ∧ (toggleOne (decodeToggleRequest e none) h).AllowedIPsFile = h.AllowedIPsFile
  ∧ (toggleOne (decodeToggleRequest e none) h).UseForwardedHeaders = h.UseForwardedHeaders
  ∧ (toggleOne (decodeToggleRequest e none) h).TrustedProxies = h.TrustedProxies
  ∧ (toggleOne (decodeToggleRequest e none) h).RetryAfter = h.RetryAfter
  ∧ (toggleOne (decodeToggleRequest e none) h).DefaultEnabled = h.DefaultEnabled
  ∧ (toggleOne (decodeToggleRequest e none) h).StatusFile = h.StatusFile
  ∧ (toggleOne (decodeToggleRequest e none) h).AuthRealm = h.AuthRealm
  ∧ (toggleOne (decodeToggleRequest e none) h).HtpasswdFile = h.HtpasswdFile
  ∧ (toggleOne (decodeToggleRequest e none) h).BypassPaths = h.BypassPaths
  ∧ (toggleOne (decodeToggleRequest e none) h).allowedIndividualIPs = h.allowedIndividualIPs
  ∧ (toggleOne (decodeToggleRequest e none) h).allowedNetworks = h.allowedNetworks
  ∧ (toggleOne (decodeToggleRequest e none) h).trustedProxyIPs = h.trustedProxyIPs
  ∧ (toggleOne (decodeToggleRequest e none) h).trustedProxyNetworks = h.trustedProxyNetworks
  ∧ (toggleOne (decodeToggleRequest e none) h).htpasswdEntries = h.htpasswdEntries := by
  refine ⟨List.mem_map_of_mem _ hmem, rfl, rfl, fun t => rfl,
    rfl, rfl, rfl, rfl, rfl, rfl, rfl, rfl, rfl, rfl, rfl, rfl, rfl, rfl, rfl, rfl⟩

/-- A handler with a previously configured positive retention timeout, used
to witness the erasing behaviour of the toggle. -/
def sampleRetentionHandler : MaintenanceHandler :=
  { enabled := true, RequestRetentionModeTimeout := 30, StatusFile := "status.json" }

/-- Witness for C10: toggling with a body that omits the retention field sets
the previously positive timeout of a registered handler to `0`. -/
theorem toggle_overwrites_retention_witness :
    (toggleOne (decodeToggleRequest false none) sampleRetentionHandler).RequestRetentionModeTimeout = 0 :=
  (toggle_overwrites_retention [sampleRetentionHandler] false sampleRetentionHandler
    (List.mem_singleton.mpr rfl)).2.1

/-! ## C8 — status-file round trip and fallback to the default -/

/-- C8: persisting `{"enabled": true}` through the admin toggle and
provisioning a fresh handler on the same (non-empty) status file yields
`enabled = true` for every `DefaultEnabled`; more generally the persisted
flag round-trips; and a missing/unreadable or malformed status file makes
provisioning fall back to `DefaultEnabled` (without failing: the status load
is total). -/
theorem status_round_trip :
    (∀ (sf : String) (d : Bool) (t : Option Int), sf ≠ "" →
      provisionEnabled sf (some (togglePersistedContent (decodeToggleRequest true t))) d = true)
  ∧ (∀ (sf : String) (b d : Bool), sf ≠ "" →
      provisionEnabled sf (some (marshalStatus b)) d = b)
  ∧ (∀ (sf : String) (d : Bool), sf ≠ "" →
      provisionEnabled sf none d = d)
  ∧ (∀ (sf data : String) (d : Bool), sf ≠ "" → unmarshalStatus data = none →
      provisionEnabled sf (some data) d = d) := by
  have hmarshal : ∀ b : Bool, unmarshalStatus (marshalStatus b) = some b := by
    intro b
    cases b <;> rfl
  refine ⟨?_, ?_, ?_, ?_⟩
  · intro sf d t hsf
    simp [provisionEnabled, hsf, togglePersistedContent, decodeToggleRequest, hmarshal true]
  · intro sf b d hsf
    simp [provisionEnabled, hsf, hmarshal b]
  · intro sf d hsf
    simp [provisionEnabled, hsf]
  · intro sf data d hsf hbad
    simp [provisionEnabled, hsf, hbad]

/-- Witness for C8: a malformed status file falls back to the configured
default. -/
theorem status_round_trip_witness :
    provisionEnabled "maintenance_status.json" (some "not json at all") true = true :=
  status_round_trip.2.2.2 "maintenance_status.json" "not json at all" true
    (by decide) (by decide)

/-! ## C3 — bypass paths forward unconditionally -/

/-- C3: while maintenance is enabled, a request whose path matches a
configured bypass pattern (`isPathBypassed`, which normalizes the path and
does exact or prefix-wildcard matching) is forwarded to the next handler, for
every IP-allow configuration, every credential configuration and every bcrypt
behaviour — the bypass decision precedes and is independent of the address
and credential checks. -/
theorem bypass_path_forwards (bc : String → String → Bool)
    (h : MaintenanceHandler) (r : Request) (events : List HoldEvent)
    (henabled : h.enabled = true)
    (hbypass : isPathBypassed h r.path = true) :
    serveHTTP bc h r events = some ServeOutcome.forward := by
  unfold serveHTTP
  simp [henabled, hbypass]

/-- A handler in maintenance mode with a bypass pattern, no allowed IPs and
no credentials. -/
def bypassHandler : MaintenanceHandler :=
  { enabled := true, BypassPaths := ["/health/*"], RequestRetentionModeTimeout := 10 }

/-- A request whose path matches the configured bypass prefix pattern. -/
def bypassRequest : Request :=
  { remoteAddr := "192.0.2.7:4444", path := "/health/check" }

/-- Witness for C3: the bypass request is forwarded even though no IP or
credential matches (and even with retention configured). -/
theorem bypass_path_forwards_witness :
    serveHTTP (fun _ _ => false) bypassHandler bypassRequest [] =
      some ServeOutcome.forward :=
  bypass_path_forwards (fun _ _ => false) bypassHandler bypassRequest []
    (by decide) (by decide)

/-! ## C1 — a held request is forwarded when the poll observes the toggle-off -/

/-- If no timer or cancellation event precedes it, a poll observing
`enabled == false` makes the hold loop forward the request. -/
theorem holdLoop_release (h : MaintenanceHandler) (r : Request)
    (pre post : List HoldEvent)
    (hpre : ∀ e ∈ pre, e ≠ HoldEvent.timerFired ∧ e ≠ HoldEvent.ctxCancelled) :
    holdLoop h r (pre ++ HoldEvent.pollTick false :: post) =
      some ServeOutcome.forward := by
  induction pre with
  | nil => simp [holdLoop]
  | cons e t ih =>
    cases e with
    | timerFired => exact absurd rfl (hpre _ (List.mem_cons_self _ _)).1
    | ctxCancelled => exact absurd rfl (hpre _ (List.mem_cons_self _ _)).2
    | pollTick b =>
      cases b with
      | true =>
        simp only [List.cons_append, holdLoop, if_pos]
        exact ih (fun x hx => hpre x (List.mem_cons_of_mem _ hx))
      | false => simp [holdLoop]
    | clientDisconnected =>
      simp only [List.cons_append, holdLoop]
      exact ih (fun x hx => hpre x (List.mem_cons_of_mem _ hx))

/-- C1: a request held in the retention loop (maintenance enabled, positive
retention timeout, access decision Deny: no bypass, no IP match, no
credential match) is forwarded to the next handler — not given a maintenance
response — as soon as the periodic check observes `enabled == false` before
the deadline or a cancellation fires; the theorem holds for every access
configuration and every bcrypt oracle, so the access decision is not re-run
on release. -/
theorem held_request_forwarded_on_disable (bc : String → String → Bool)
    (h : MaintenanceHandler) (r : Request) (pre post : List HoldEvent)
    (henabled : h.enabled = true)
    (hpath : isPathBypassed h r.path = false)
    (hip : isIPAllowed h (getClientIP h r) = false)
    (hauth : isAuthenticated bc h r = false)
    (hret : 0 < h.RequestRetentionModeTimeout)
    (hpre : ∀ e ∈ pre, e ≠ HoldEvent.timerFired ∧ e ≠ HoldEvent.ctxCancelled) :
    serveHTTP bc h r (pre ++ HoldEvent.pollTick false :: post) =
      some ServeOutcome.forward := by
  unfold serveHTTP
  simp only [henabled, hpath, hip, hauth, hret]
  simp only [Bool.not_true, Bool.false_eq_true, if_false, not_true_eq_false]
  exact holdLoop_release h r pre post hpre

/-- A handler in maintenance mode with retention configured and no access
bypasses, used to witness the hold-loop claims. -/
def holdHandler : MaintenanceHandler :=
  { enabled := true, RequestRetentionModeTimeout := 5 }

/-- A plain denied request, used to witness the hold-loop claims. -/
def holdRequest : Request :=
  { remoteAddr := "198.51.100.20:33000", path := "/index.html" }

/-- Witness for C1: one poll sees maintenance still on, the next poll sees it
toggled off, and the held request is forwarded. -/
theorem held_request_forwarded_on_disable_witness :
    serveHTTP (fun _ _ => false) holdHandler holdRequest
      [HoldEvent.pollTick true, HoldEvent.pollTick false] =
      some ServeOutcome.forward :=
  held_request_forwarded_on_disable (fun _ _ => false) holdHandler holdRequest
    [HoldEvent.pollTick true] [] (by decide) (by decide) (by decide) (by decide)
    (by decide) (by decide)

/-! ## C5 — the cancellation channel is the handler context, not per-request

The retention loop's `select` includes `case <-h.ctx.Done()`, and `h.ctx` is
the Caddy provisioning/config context stored by `Provision` — it is cancelled
on a config reload or server shutdown and by nothing per-request.  The code
never consults `r.Context()`, so a client disconnect fires none of the
watched channels and a held request whose client goes away keeps holding
until the timer or a poll resolves it.  The code's own comment above the
`select` nevertheless lists "Client connection closed" among the scenarios
cancelling this context, and the spec/claim repeat that: the per-request
half of the claimed behaviour is the documented intent, and the code watches
the wrong context. -/

/-- C5 (code bug): evaluated on a concretely held, denied request — a client
disconnect alone leaves the gate unresolved (still holding), and it only
resolves once the retention timer later fires; by contrast a cancellation of
the handler's Caddy context (config reload, shutdown) does resolve the gate
to the maintenance response.  The claimed release on the per-request
cancellation signal (client disconnect) is therefore not the program's
behaviour, contradicting the code's own comment above the `select`. -/
theorem holdLoop_ignores_client_disconnect :
    serveHTTP (fun _ _ => false) holdHandler holdRequest
      [HoldEvent.clientDisconnected] = none
  ∧ serveHTTP (fun _ _ => false) holdHandler holdRequest
      [HoldEvent.clientDisconnected, HoldEvent.timerFired] =
      some (ServeOutcome.maintenance (serveMaintenancePage holdHandler holdRequest))
  ∧ serveHTTP (fun _ _ => false) holdHandler holdRequest
      [HoldEvent.pollTick true, HoldEvent.ctxCancelled] =
      some (ServeOutcome.maintenance (serveMaintenancePage holdHandler holdRequest)) :=
  ⟨rfl, rfl, rfl⟩

/-! ## C7 — shape of the maintenance response -/

/-- The realm `serveMaintenancePage` puts into the challenge. -/
def effectiveRealm (h : MaintenanceHandler) : String :=
  if h.AuthRealm ≠ "" then h.AuthRealm else "Maintenance Mode"

/-- C7: every maintenance response carries `Retry-After` equal to the
configured positive value or the default `300`; when credential-based access
is configured (htpasswd file set and at least one entry loaded) the status is
401 with a `WWW-Authenticate` Basic challenge containing the configured
realm, otherwise the status is 503 with no challenge; and the body is the
JSON document when the request's `Accept` or `Content-Type` equals
`application/json`, else HTML — the configured template or the built-in
default. -/
theorem serveMaintenancePage_spec (h : MaintenanceHandler) (r : Request) :
    (serveMaintenancePage h r).retryAfter =
      (if 0 < h.RetryAfter then h.RetryAfter else 300)
  ∧ (h.HtpasswdFile ≠ "" ∧ 0 < h.htpasswdEntries.length →
      (serveMaintenancePage h r).status = 401
      ∧ (serveMaintenancePage h r).wwwAuthenticate =
          some ("Basic realm=\"" ++ effectiveRealm h ++ "\"")
      ∧ ∀ v, (serveMaintenancePage h r).wwwAuthenticate = some v →
          isSubstr (effectiveRealm h).data v.data = true)
  ∧ (¬ (h.HtpasswdFile ≠ "" ∧ 0 < h.htpasswdEntries.length) →
      (serveMaintenancePage h r).status = 503
      ∧ (serveMaintenancePage h r).wwwAuthenticate = none)
  ∧ (isJSONRequest r = true →
      (serveMaintenancePage h r).body = ResponseBody.json serveJSONBody)
  ∧ (isJSONRequest r = false →
      (serveMaintenancePage h r).body =
        ResponseBody.html
          (if h.HTMLTemplate = "" then defaultHTMLTemplate else h.HTMLTemplate)) := by
  refine ⟨?_, ?_, ?_, ?_, ?_⟩
  · simp only [serveMaintenancePage, defaultRetryAfter]
  · intro hconf
    have hdata : ("Basic realm=\"" ++ effectiveRealm h ++ "\"").data =
        "Basic realm=\"".data ++ (effectiveRealm h).data ++ "\"".data := by
      simp [String.data_append]
    refine ⟨?_, ?_, ?_⟩
    · simp only [serveMaintenancePage, if_pos hconf]
    · simp only [serveMaintenancePage, if_pos hconf, effectiveRealm]
    · intro v hv
      simp only [serveMaintenancePage, if_pos hconf] at hv
      have hveq : v = "Basic realm=\"" ++ effectiveRealm h ++ "\"" := by
        have := hv
        simp only [Option.some_inj] at this
        rw [← this, effectiveRealm]
      rw [hveq, hdata]
      exact isSubstr_append_self _ _ _
  · intro hconf
    constructor <;> simp only [serveMaintenancePage, if_neg hconf]
  · intro hjson
    simp only [serveMaintenancePage, if_pos hjson]
  · intro hjson
    simp only [serveMaintenancePage, hjson]
    simp

/-- A handler with credentials configured, used to witness the 401 branch of
the maintenance response. -/
def authHandler : MaintenanceHandler :=
  { enabled := true, HtpasswdFile := "users.htpasswd", AuthRealm := "Ops Area",
    htpasswdEntries := [("admin", "$2y$10$abcdefghijklmnopqrstuv")] }

/-- A request that declares a JSON preference. -/
def jsonRequest : Request :=
  { remoteAddr := "198.51.100.9:1234", path := "/api", accept := "application/json" }

/-- Witness for C7: with credentials configured and a JSON `Accept` header,
the response is a 401 with the default `Retry-After` and the JSON body. -/
theorem serveMaintenancePage_spec_witness :
    (serveMaintenancePage authHandler jsonRequest).status = 401
  ∧ (serveMaintenancePage authHandler jsonRequest).retryAfter = 300
  ∧ (serveMaintenancePage authHandler jsonRequest).body =
      ResponseBody.json serveJSONBody := by
  have hs := serveMaintenancePage_spec authHandler jsonRequest
  exact ⟨(hs.2.1 ⟨by decide, by decide⟩).1, by rw [hs.1]; decide, hs.2.2.2.1 (by decide)⟩

/-! ## C2 — client address resolution -/

/-- Spec-side scan (written from the spec's words, for comparison with
`pickFromXFF`): walk the entries from the rightmost backward, skip entries
that fail to parse or are themselves trusted-proxy addresses, return the
first entry that parses and is not a trusted proxy.  The argument is the
already-reversed entry list. -/
def specScan (h : MaintenanceHandler) : List String → Option String
  | [] => none
  | e :: rest =>
    let c := trimSpace e
    match parseIPModel c with
    | none => specScan h rest
    | some ip => if isTrustedProxy h ip then specScan h rest else some c

/-- Spec-side resolver (written from the spec's words, for comparison with
`getClientIP`): the port-stripped direct peer whenever header trust is
disabled or the peer is not a trusted proxy; otherwise the rightmost
forwarded-for entry that parses and is untrusted; otherwise the secondary
single-address header when it parses and is untrusted; otherwise the peer. -/
def resolveClientAddressSpec (h : MaintenanceHandler) (r : Request) : String :=
  let peer := stripPort r.remoteAddr
  let peerTrusted :=
    match parseIPModel peer with
    | some ip => isTrustedProxy h ip
    | none => false
  if ¬ h.UseForwardedHeaders then peer
  else if peerTrusted = false then peer
  else
    match specScan h ((splitOnChar ',' r.xForwardedFor.data).map String.mk).reverse with
    | some c => c
    | none =>
      let hint := trimSpace r.xRealIP
      match parseIPModel hint with
      | some ip => if isTrustedProxy h ip then peer else hint
      | none => peer

/-- The code's forwarded-for pick agrees with the spec-side scan. -/
theorem pickFromXFF_eq_specScan (h : MaintenanceHandler) (parts : List String) :
    pickFromXFF h parts = specScan h parts.reverse := by
  unfold pickFromXFF
  generalize parts.reverse = l
  induction l with
  | nil => rfl
  | cons e t ih =>
    simp only [List.findSome?, specScan]
    by_cases he : trimSpace e = ""
    · rw [he]
      have hp : parseIPModel "" = none := rfl
      simp only [hp, if_pos rfl]
      exact ih
    · rw [if_neg he]
      cases hp : parseIPModel (trimSpace e) with
      | none => exact ih
      | some ip =>
        dsimp only
        by_cases ht : isTrustedProxy h ip = true
        · simp only [if_pos ht]
          exact ih
        · simp only [if_neg ht]

/-- The handler of the concrete chain scenario: header trust enabled, with
`203.0.113.9` the only trusted proxy. -/
def chainHandler : MaintenanceHandler :=
  { enabled := true, UseForwardedHeaders := true,
    TrustedProxies := ["203.0.113.9"], trustedProxyIPs := [3405803785] }

/-- The concrete chain request: direct peer is the trusted proxy and the
forwarded chain is `"198.51.100.7, 203.0.113.9"` (client, then proxy). -/
def chainRequest : Request :=
  { remoteAddr := "203.0.113.9:9999", path := "/",
    xForwardedFor := "198.51.100.7, 203.0.113.9" }

/-- C2: `getClientIP` behaves exactly as the spec's `resolveClientAddress`
describes — port-stripped peer when header trust is disabled or the peer is
untrusted, otherwise the rightmost untrusted parsing forwarded-for entry,
then the `X-Real-IP` fallback, then the peer; in particular for the chain
`"A, B"` with `B` trusted and `A` not, the resolved address is `A`. -/
theorem getClientIP_matches_spec :
    (∀ (h : MaintenanceHandler) (r : Request),
      getClientIP h r = resolveClientAddressSpec h r)
  ∧ getClientIP chainHandler chainRequest = "198.51.100.7" := by
  constructor
  · intro h r
    unfold getClientIP resolveClientAddressSpec
    dsimp only
    by_cases hu : h.UseForwardedHeaders = true
    · simp only [hu, not_true, if_false]
      cases hp : parseIPModel (stripPort r.remoteAddr) with
      | none => rfl
      | some remoteIP =>
        dsimp only
        by_cases ht : isTrustedProxy h remoteIP = true
        · simp only [ht, not_true, if_false]
          have hx : (if r.xForwardedFor ≠ "" then
                pickFromXFF h (List.map String.mk (splitOnChar ',' r.xForwardedFor.data))
              else none) =
              specScan h (List.map String.mk (splitOnChar ',' r.xForwardedFor.data)).reverse := by
            by_cases hxe : r.xForwardedFor = ""
            · rw [if_neg (not_not_intro hxe), hxe]
              rfl
            · rw [if_pos hxe, pickFromXFF_eq_specScan]
          rw [hx]
          cases hpick :
              specScan h (List.map String.mk (splitOnChar ',' r.xForwardedFor.data)).reverse with
          | some c => rfl
          | none =>
            dsimp only
            by_cases hxr : trimSpace r.xRealIP = ""
            · rw [if_neg (not_not_intro hxr), hxr]
              rfl
            · rw [if_pos hxr]
              cases hq : parseIPModel (trimSpace r.xRealIP) with
              | none => rfl
              | some ip =>
                dsimp only
                by_cases ht2 : isTrustedProxy h ip = true
                · simp [ht2]
                · simp [ht2]
        · simp only [Bool.not_eq_true] at ht
          simp only [ht]
          rfl
    · simp only [Bool.not_eq_true] at hu
      simp only [hu]
      rfl
  · decide

/-! ## C4 — allow-list loading on a malformed literal -/

/-- Does one (trimmed) allow-list entry pass the validation the entry loop
applies: CIDR parsing when it contains `/`, IP parsing otherwise? -/
def allowEntryValid (entry : String) : Bool :=
  let t := trimSpace entry
  if t.data.any (· = '/') then (parseCIDRModel t).isSome else (parseIPModel t).isSome

/-- A configuration whose allow-list has one well-formed entry followed by a
malformed one. -/
def badAllowHandler : MaintenanceHandler :=
  { AllowedIPs := ["10.0.0.1", "nope"] }

/-- Counterexample to C4 as stated: on `["10.0.0.1", "nope"]` the load does
return an error naming the malformed literal, but the handler state after the
failed call still holds the entry parsed before the malformed one, and a
membership check against that state succeeds for it — the partial allow-set
is observable. -/
theorem parseAllowedIPs_partial_set_counterexample :
    (parseAllowedIPs badAllowHandler none).1 = some "invalid IP address \x27nope\x27"
  ∧ (parseAllowedIPs badAllowHandler none).2.allowedIndividualIPs = [167772161]
  ∧ isIPAllowed (parseAllowedIPs badAllowHandler none).2 "10.0.0.1" = true := by
  exact ⟨by decide, by decide, by decide⟩

/-- `(a ++ b).data = a.data ++ b.data` (definitional for `String.append`). -/
theorem string_data_append (a b : String) : (a ++ b).data = a.data ++ b.data := rfl

/-- The entry loop stops at the first malformed entry with an error whose
text contains the trimmed offending literal. -/
theorem parseAllowedIPsLoop_first_invalid (pre : List String) :
    ∀ (h : MaintenanceHandler) (post : List String) (bad : String),
    (∀ e ∈ pre, allowEntryValid e = true) → allowEntryValid bad = false →
    ∃ err, (parseAllowedIPsLoop h (pre ++ bad :: post)).1 = some err ∧
      isSubstr (trimSpace bad).data err.data = true := by
  induction pre with
  | nil =>
    intro h post bad _ hbad
    simp only [List.nil_append]
    unfold allowEntryValid at hbad
    dsimp only at hbad
    unfold parseAllowedIPsLoop
    dsimp only
    by_cases hs : (trimSpace bad).data.any (· = '/') = true
    · rw [if_pos hs] at hbad ⊢
      have hnone : parseCIDRModel (trimSpace bad) = none := by
        cases hcp : parseCIDRModel (trimSpace bad) with
        | none => rfl
        | some v => rw [hcp] at hbad; cases hbad
      rw [hnone]
      refine ⟨_, rfl, ?_⟩
      rw [string_data_append, string_data_append]
      exact isSubstr_append_self _ _ _
    · rw [if_neg hs] at hbad ⊢
      have hnone : parseIPModel (trimSpace bad) = none := by
        cases hcp : parseIPModel (trimSpace bad) with
        | none => rfl
        | some v => rw [hcp] at hbad; cases hbad
      rw [hnone]
      refine ⟨_, rfl, ?_⟩
      rw [string_data_append, string_data_append]
      exact isSubstr_append_self _ _ _
  | cons e t ih =>
    intro h post bad hpre hbad
    have he := hpre e (List.mem_cons_self _ _)
    unfold allowEntryValid at he
    dsimp only at he
    simp only [List.cons_append]
    unfold parseAllowedIPsLoop
    dsimp only
    by_cases hs : (trimSpace e).data.any (· = '/') = true
    · rw [if_pos hs] at he ⊢
      obtain ⟨n, hn⟩ := Option.isSome_iff_exists.mp he
      rw [hn]
      exact ih _ post bad (fun x hx => hpre x (List.mem_cons_of_mem _ hx)) hbad
    · rw [if_neg hs] at he ⊢
      obtain ⟨ip, hip⟩ := Option.isSome_iff_exists.mp he
      rw [hip]
      exact ih _ post bad (fun x hx => hpre x (List.mem_cons_of_mem _ hx)) hbad

/-- C4 (amended): with no allow-list file configured and every entry before
the first malformed literal well-formed, `parseAllowedIPs` fails with an
error naming the (trimmed) offending literal, so provisioning fails; the load
is however not atomic — the handler's in-memory slices retain the entries
that preceded the malformed one (see the counterexample), and they are only
discarded by the reset at the start of the next call. -/
theorem parseAllowedIPs_first_invalid (h : MaintenanceHandler)
    (pre post : List String) (bad : String)
    (hfile : h.AllowedIPsFile = "")
    (hlist : h.AllowedIPs = pre ++ bad :: post)
    (hpre : ∀ e ∈ pre, allowEntryValid e = true)
    (hbad : allowEntryValid bad = false) :
    ∃ err, (parseAllowedIPs h none).1 = some err ∧
      isSubstr (trimSpace bad).data err.data = true := by
  unfold parseAllowedIPs
  dsimp only
  rw [if_neg (not_not_intro hfile), hlist]
  exact parseAllowedIPsLoop_first_invalid pre _ post bad hpre hbad

/-- Witness for the amended C4: the concrete malformed configuration does
produce an error. -/
theorem parseAllowedIPs_first_invalid_witness :
    ((parseAllowedIPs badAllowHandler none).1).isSome = true := by
  obtain ⟨err, herr, _⟩ := parseAllowedIPs_first_invalid badAllowHandler
    ["10.0.0.1"] [] "nope" (by decide) (by decide) (by decide) (by decide)
  rw [herr]
  rfl

end FopsMaintenance
